import Mathlib

/-!
Verification development for the `vm-inspector` disk-image inspection
pipeline. The repository's Python modules are shallowly embedded as Lean
definitions: pure parsing functions become Lean functions over `String`
(represented through `List Char` primitives that mirror Python string
semantics), the orchestration script `inspect.py` becomes a function from an
abstract world (the outcomes of the external mount collaborators and the
contents the mounted filesystems expose) to a trace of acquired and released
mount-point resources plus a final outcome. Filesystem traversal performed by
the collaborators (`os.walk`, `os.scandir`, `glob`) is abstracted into the
world: the data each traversal would deliver is a field of the world, while
every parsing and decision step is translated from the source.
-/

namespace VmInspect

/-! ## Python string primitives -/

/-- The ASCII whitespace set of Python: stripped by `str.strip()`, split on by
`str.split()`, and matched by the regex class `\s`. -/
def pyWs (c : Char) : Bool :=
  c = ' ' || c = '\t' || c = '\n' || c = '\r' || c = '\x0b' || c = '\x0c'

/-- Characters stripped by Python `str.strip("'\"")`. -/
def quoteChar (c : Char) : Bool := c = '\'' || c = '"'

/-- Strip characters satisfying `p` from both ends, as Python
`str.strip(chars)` does. -/
def stripL (p : Char → Bool) (cs : List Char) : List Char :=
  ((cs.dropWhile p).reverse.dropWhile p).reverse

/-- Python `str.strip()`. -/
def pyStrip (s : String) : String := ⟨stripL pyWs s.data⟩

/-- Python `str.strip().strip("'\"")`, the normalisation `get_linux_os_info`
applies to names, versions and `ID_LIKE` values. -/
def pyStripWsQuotes (s : String) : String :=
  ⟨stripL quoteChar (stripL pyWs s.data)⟩

/-- Helper for `pyLines`: accumulate the current line in reverse. -/
def pyLinesAux : List Char → List Char → List (List Char)
  | [], acc => if acc.isEmpty then [] else [acc.reverse]
  | c :: rest, acc =>
    if c = '\n' then (acc.reverse ++ ['\n']) :: pyLinesAux rest []
    else pyLinesAux rest (c :: acc)

/-- Iterating over a Python text file yields each line with its trailing
newline kept; the final line may lack one; an empty file yields no lines. -/
def pyLines (s : String) : List (List Char) := pyLinesAux s.data []

/-- Python `line.split("=", 1)`: `none` when the line contains no `=`,
otherwise the text before the first `=` and everything after it. -/
def splitEq1 : List Char → Option (List Char × List Char)
  | [] => none
  | c :: rest =>
    if c = '=' then some ([], rest)
    else (splitEq1 rest).map fun kv => (c :: kv.1, kv.2)

/-- Helper for `pySplitWs`: split on whitespace runs, dropping empty pieces. -/
def pySplitAux : List Char → List Char → List (List Char)
  | [], acc => if acc.isEmpty then [] else [acc.reverse]
  | c :: rest, acc =>
    if pyWs c then
      if acc.isEmpty then pySplitAux rest []
      else acc.reverse :: pySplitAux rest []
    else pySplitAux rest (c :: acc)

/-- Python `str.split()` with no argument. -/
def pySplitWs (s : String) : List String := (pySplitAux s.data []).map (⟨·⟩)

/-- Python `str.split("\n")`: split at every newline, keeping empty pieces;
always yields at least one piece. -/
def splitNlAux : List Char → List Char → List (List Char)
  | [], acc => [acc.reverse]
  | c :: rest, acc =>
    if c = '\n' then acc.reverse :: splitNlAux rest []
    else splitNlAux rest (c :: acc)

/-- Does `cs` start with the pattern `pre`? -/
def startsL : List Char → List Char → Bool
  | [], _ => true
  | _ :: _, [] => false
  | p :: ps, c :: cs => p = c && startsL ps cs

/-- Drop one trailing newline: in a Python non-multiline regex, `$` matches at
the end of the string or just before a newline that ends the string. -/
def chompNl (cs : List Char) : List Char :=
  match cs.reverse with
  | '\n' :: r => r.reverse
  | _ => cs

/-- Python dict assignment `kv[k] = v`: overwrite an existing key's value,
otherwise append the new binding. -/
def dictSet (kv : List (String × α)) (k : String) (v : α) : List (String × α) :=
  if kv.any (·.1 == k) then kv.map fun p => if p.1 == k then (k, v) else p
  else kv ++ [(k, v)]

/-- Python `kv.get(k)`: the bound value, when the key is present. -/
def dictGet (kv : List (String × α)) (k : String) : Option α :=
  (kv.find? (·.1 == k)).map (·.2)

/-! ## tools/pyparted.py — the Partition Classifier -/

/-- A raw partition descriptor as the partition-table collaborator
(`pyparted`) reports it: partition number, the detected filesystem type (if
any), the LVM flag, and geometry in sectors. -/
structure RawPart where
  number : Nat
  fileSystem : Option String
  lvmFlag : Bool
  start : Nat
  length : Nat
deriving DecidableEq

/-- `SUPPORTED_FS_TYPES` of `tools/pyparted.py`. -/
def SUPPORTED_FS_TYPES : List String :=
  ["ext2", "ext3", "ext4", "xfs", "btrfs", "vfat", "ntfs"]

/-- A classified partition record as `list_partitions` returns it. -/
structure Partition where
  nr : Nat
  type : String
  offset : Nat
  size : Nat
deriving DecidableEq

/-- The classification in the loop body of `list_partitions`: a supported
filesystem type wins, else the LVM flag tags the partition `lvm`, else the
descriptor is skipped (`continue`). -/
def partTypeOf (p : RawPart) : Option String :=
  match p.fileSystem with
  | some t =>
    if SUPPORTED_FS_TYPES.contains t then some t
    else if p.lvmFlag then some "lvm" else none
  | none => if p.lvmFlag then some "lvm" else none

/-- `tools/pyparted.list_partitions`, after the device and disk have been
read: walk the descriptors in order, classify each, and emit records with
byte offsets and sizes (`geometry * sectorSize`). A failure to read the
device or disk yields the empty list and is modelled by an empty input. -/
def list_partitions (sectorSize : Nat) : List RawPart → List Partition
  | [] => []
  | p :: rest =>
    match partTypeOf p with
    | some t =>
      ⟨p.number, t, p.start * sectorSize, p.length * sectorSize⟩ ::
        list_partitions sectorSize rest
    | none => list_partitions sectorSize rest

/-- Modelled from the spec: "if the descriptor's filesystem type is in the
supported set, tag it as that type; else if the LVM flag is set, tag it
`lvm`; else drop the descriptor silently". -/
def classifyDescriptorSpec (sectorSize : Nat) (p : RawPart) : Option Partition :=
  let tag : Option String :=
    if (p.fileSystem.map (SUPPORTED_FS_TYPES.contains ·)).getD false then p.fileSystem
    else if p.lvmFlag then some "lvm"
    else none
  tag.map fun t => ⟨p.number, t, p.start * sectorSize, p.length * sectorSize⟩

/-! ## tools/inspect_os.py — the OS Identifier -/

/-- The populated result of an OS probe: the dictionary
`{name, version, package_manager}` of `inspect_os.py`. An empty probe result
(the Python `{}`) is `none` at the `Option OSFields` level. -/
structure OSFields where
  name : String
  version : String
  package_manager : String
deriving DecidableEq

/-- The release-indicator files found in a mounted filesystem's `etc`
directory. The directory walk of `get_linux_os_info` is abstracted: each
field holds the contents of the corresponding file when it was found. An
`etc` with no recognised release file behaves like all fields `none`. -/
structure ReleaseFiles where
  centosRelease : Option String
  gentooRelease : Option String
  osRelease : Option String
  systemRelease : Option String
deriving DecidableEq

/-- One split attempt for `re.match(r"^(.*)\srelease\s(.*)$", s)` at prefix
length `i`: the first group takes `i` characters, then one whitespace
character, the literal `release`, one whitespace character, and the second
group takes the remainder; neither group may contain a newline. -/
def relSplitAt (cs : List Char) (i : Nat) : Option (List Char × List Char) :=
  let a := cs.take i
  match cs.drop i with
  | w1 :: rest =>
    if pyWs w1 && startsL "release".data rest then
      match rest.drop 7 with
      | w2 :: b =>
        if pyWs w2 && !(a.contains '\n') && !(b.contains '\n') then some (a, b)
        else none
      | [] => none
    else none
  | [] => none

/-- `re.match(r"^(.*)\srelease\s(.*)$", s)`: the leading `(.*)` is greedy, so
backtracking lands on the largest prefix for which the remainder matches;
`$` permits one newline at the very end (`chompNl`). -/
def matchNameRelease (s : String) : Option (String × String) :=
  let cs := chompNl s.data
  (((List.range (cs.length + 1)).reverse).findSome? (relSplitAt cs)).map
    fun nv => ((⟨nv.1⟩ : String), (⟨nv.2⟩ : String))

/-- One split attempt for the `.*release\s(.*)$` tail of the gentoo regex at
prefix length `i`. -/
def gentooSplitAt (cs : List Char) (i : Nat) : Option (List Char) :=
  if (cs.take i).contains '\n' then none
  else
    let rest := cs.drop i
    if startsL "release".data rest then
      match rest.drop 7 with
      | w :: b => if pyWs w && !(b.contains '\n') then some b else none
      | [] => none
    else none

/-- `re.match(r"^(Gentoo).*release\s(.*)$", s)`: the string must start with
`Gentoo` (so the literal `release` can only begin at position 6 or later),
the `.*` is greedy, and the first captured group is always `Gentoo`. -/
def matchGentooRelease (s : String) : Option (String × String) :=
  let cs := chompNl s.data
  if startsL "Gentoo".data cs then
    (((List.range (cs.length + 1)).reverse).findSome? (gentooSplitAt cs)).map
      fun b => ("Gentoo", (⟨b⟩ : String))
  else none

/-- The `os-release` branch of `get_linux_os_info`: collect `KEY=VALUE` lines
(skipping comments and lines without `=`) into a dict; values keep their
trailing newline, later bindings overwrite earlier ones. -/
def osReleaseKV (content : String) : List (String × String) :=
  (pyLines content).foldl
    (fun kv line =>
      if line.isEmpty then kv
      else if startsL "#".data line then kv
      else
        match splitEq1 line with
        | some p => dictSet kv (⟨p.1⟩ : String) (⟨p.2⟩ : String)
        | none => kv)
    []

/-- The closed `ID_LIKE`-token-to-package-manager mapping of the `os-release`
branch. -/
def pmOfIdToken (t : String) : Option String :=
  if t == "alpine" then some "apk"
  else if t == "debian" || t == "ubuntu" then some "dpkg"
  else if t == "arch" then some "pacman"
  else if t == "centos" || t == "fedora" || t == "rhel" then some "rpm"
  else if t == "opensuse" || t == "suse" then some "rpm"
  else if t == "ol" then some "rpm"
  else none

/-- The first recognised token wins; no recognised token leaves the package
manager empty. -/
def pmFromIdLike (tokens : List String) : String :=
  (tokens.findSome? pmOfIdToken).getD ""

/-- The `os-release` parsing block: name from `NAME`; version from `VERSION`,
falling back to `VERSION_ID`, then (when still empty) `BUILD_ID`; package
manager from the first recognised token of `ID_LIKE` (or `ID`). -/
def osReleaseInfo (content : String) : String × String × String :=
  let kv := osReleaseKV content
  let name := (dictGet kv "NAME").getD ""
  let version0 := (dictGet kv "VERSION").getD ((dictGet kv "VERSION_ID").getD "")
  let version := if version0 = "" then (dictGet kv "BUILD_ID").getD "" else version0
  let idlike := (dictGet kv "ID_LIKE").getD ((dictGet kv "ID").getD "")
  let toks := pySplitWs (pyStripWsQuotes idlike)
  (name, version, pmFromIdLike toks)

/-- The name/version/package-manager triple assembled by the `if`/`elif`
chain of `get_linux_os_info`, before the final emptiness check and
stripping. -/
def linuxRawInfo (rf : ReleaseFiles) : String × String × String :=
  match rf.centosRelease with
  | some c =>
    match matchNameRelease c with
    | some nv => (nv.1, nv.2, "rpm")
    | none => ("", "", "")
  | none =>
  match rf.gentooRelease with
  | some g =>
    match matchGentooRelease g with
    | some nv => (nv.1, nv.2, "portage")
    | none => ("", "", "")
  | none =>
  match rf.osRelease with
  | some o => osReleaseInfo o
  | none =>
  match rf.systemRelease with
  | some srel =>
    match matchNameRelease srel with
    | some nv => (nv.1, nv.2, "rpm")
    | none => ("", "", "")
  | none => ("", "", "")

/-- `tools/inspect_os.get_linux_os_info`, after the directory walk: when the
raw name or the raw version is empty the whole result is the empty dict
(`none`); otherwise both are stripped of whitespace and quotes. The
emptiness check happens before stripping, exactly as in the source. -/
def get_linux_os_info (rf : ReleaseFiles) : Option OSFields :=
  let nvp := linuxRawInfo rf
  if nvp.1 = "" || nvp.2.1 = "" then none
  else some ⟨pyStripWsQuotes nvp.1, pyStripWsQuotes nvp.2.1, nvp.2.2⟩

/-- The last value bound to name `k` in a registry key's value list: the
source loops over all values, each matching assignment overwriting the
previous one. -/
def lastValueOf (k : String) (vals : List (String × String)) : String :=
  vals.foldl (fun acc p => if p.1 == k then p.2 else acc) ""

/-- `tools/inspect_os.get_windows_os_info`: `none` stands for a missing or
unreadable SOFTWARE hive or a missing `CurrentVersion` key; otherwise the
values of the key are scanned for `ProductName` and `CurrentVersion`, and a
missing name or version nulls the result. -/
def get_windows_os_info (currentVersionValues : Option (List (String × String))) :
    Option OSFields :=
  match currentVersionValues with
  | none => none
  | some vals =>
    let name := lastValueOf "ProductName" vals
    let version := lastValueOf "CurrentVersion" vals
    if name = "" || version = "" then none
    else some ⟨name, version, "win"⟩

/-! ## tools/inspect_apps.py — the Package Database Parsers

Database-location searches (`os.path.exists`, the one-subdirectory-deeper
fallback, `os.walk` for rpm) are abstracted: an `Option` input is `none` when
no database was found and otherwise carries what the found database exposes.
All parsing of database contents is translated from the source. -/

/-- A Python value that can land in a package record: the pacman `desc`
parser stores a plain string for a two-line section but a list of strings
for a longer one; every other parser stores strings. -/
inductive PyVal where
  | str (s : String)
  | list (l : List String)
deriving DecidableEq

/-- Python truthiness for the values above. -/
def PyVal.truthy : PyVal → Bool
  | .str s => s != ""
  | .list l => !l.isEmpty

/-- One `{name, version}` record of the application inventory. -/
structure Package where
  name : PyVal
  version : PyVal
deriving DecidableEq

/-- One line of the apk `installed` database: a blank line flushes the
pending stanza (kept only when both `P:` and `V:` were seen), `P:`/`V:`
lines set name and version on the stripped line. State is
`(name, version, packages)`. -/
def apkStep (st : String × String × List Package) (line : List Char) :
    String × String × List Package :=
  let l := stripL pyWs line
  if l.isEmpty then
    ("", "",
      if st.1 ≠ "" ∧ st.2.1 ≠ "" then st.2.2 ++ [⟨.str st.1, .str st.2.1⟩]
      else st.2.2)
  else if startsL "P:".data l then ((⟨l.drop 2⟩ : String), st.2.1, st.2.2)
  else if startsL "V:".data l then (st.1, (⟨l.drop 2⟩ : String), st.2.2)
  else st

/-- `list_applications_apk`, given the contents of the database when it was
found: fold `apkStep` over the lines; note that no flush happens at end of
file. -/
def list_applications_apk : Option String → List Package
  | none => []
  | some content => ((pyLines content).foldl apkStep ("", "", [])).2.2

/-- One line of the dpkg `status` file: state is
`(name, version, installed, packages)`; a blank line flushes the stanza when
name and version are set and the `Status:` line contained the token
`installed`; `Package:`/`Version:` drop 9 characters (`"Package: "`,
`"Version: "`), `Status:` splits the text after 8 characters. -/
def dpkgStep (st : String × String × Bool × List Package) (line : List Char) :
    String × String × Bool × List Package :=
  let l := stripL pyWs line
  if l.isEmpty then
    ("", "", false,
      if st.1 ≠ "" ∧ st.2.1 ≠ "" ∧ st.2.2.1 = true then
        st.2.2.2 ++ [⟨.str st.1, .str st.2.1⟩]
      else st.2.2.2)
  else if startsL "Package:".data l then ((⟨l.drop 9⟩ : String), st.2.1, st.2.2.1, st.2.2.2)
  else if startsL "Status:".data l then
    (st.1, st.2.1,
      ((pySplitAux (l.drop 8) []).map fun cs => (⟨cs⟩ : String)).contains "installed",
      st.2.2.2)
  else if startsL "Version:".data l then (st.1, (⟨l.drop 9⟩ : String), st.2.2.1, st.2.2.2)
  else st

/-- `list_applications_dpkg`, given the contents of the database when it was
found; as for apk, no flush happens at end of file. -/
def list_applications_dpkg : Option String → List Package
  | none => []
  | some content => ((pyLines content).foldl dpkgStep ("", "", false, [])).2.2.2

/-- Is this position the start of `%[A-Z]+%`? The lookahead of the pacman
section-splitting regex. -/
def pacLookahead (cs : List Char) : Bool :=
  match cs with
  | '%' :: rest =>
    let caps := rest.takeWhile fun c => 'A' ≤ c && c ≤ 'Z'
    !caps.isEmpty && startsL "%".data (rest.drop caps.length)
  | _ => false

/-- Python `re.split(r"\n(?=%[A-Z]+%)", text)`: cut at every newline that is
immediately followed by a `%FIELD%` header; the newline is consumed, the
header is not. -/
def pacSections : List Char → List Char → List (List Char)
  | [], acc => [acc.reverse]
  | c :: rest, acc =>
    if c = '\n' && pacLookahead rest then acc.reverse :: pacSections rest []
    else pacSections rest (c :: acc)

/-- One section of a pacman `desc` file: strip it, split on newlines, strip
`%` from the first line to get the key; the value is the empty string for a
one-line section, the second line for a two-line section, and the list of
remaining lines otherwise. -/
def pacSectionStep (kv : List (String × PyVal)) (sec : List Char) :
    List (String × PyVal) :=
  let s := stripL pyWs sec
  match splitNlAux s [] with
  | [] => kv
  | k0 :: restLines =>
    let k : String := ⟨stripL (· == '%') k0⟩
    let v : PyVal :=
      match restLines with
      | [] => .str ""
      | [v1] => .str (⟨v1⟩ : String)
      | _ => .list (restLines.map fun cs => (⟨cs⟩ : String))
    dictSet kv k v

/-- Parse one pacman `desc` file into its field dictionary. -/
def parsePacmanDesc (content : String) : List (String × PyVal) :=
  (pacSections content.data []).foldl pacSectionStep []

/-- `list_applications_pacman`, given the package directories of the local
database when it was found: each entry is the contents of that directory's
`desc` file, or `none` when the file is missing — in which case `open(desc)`
raises and the exception propagates out of the parser (`.error`). A package
is kept when both `NAME` and `VERSION` are truthy. -/
def list_applications_pacman : Option (List (Option String)) → Except Unit (List Package)
  | none => .ok []
  | some descs =>
    descs.foldlM
      (fun pkgs desc? =>
        match desc? with
        | none => .error ()
        | some content =>
          let kv := parsePacmanDesc content
          let name := (dictGet kv "NAME").getD (.str "")
          let version := (dictGet kv "VERSION").getD (.str "")
          .ok (if name.truthy && version.truthy then pkgs ++ [⟨name, version⟩] else pkgs))
      []

/-- Greedy split for `re.match(r"^(.+)-(\d.*)$", pkg)`: the `(.+)` is greedy,
so backtracking tries split points from the right and the match lands on the
last hyphen that is followed by a digit; the recursion prefers a split found
in the tail. -/
def portageScan : List Char → Option (List Char × List Char)
  | [] => none
  | c :: rest =>
    match portageScan rest with
    | some nv => some (c :: nv.1, nv.2)
    | none =>
      if c = '-' then
        match rest with
        | d :: _ => if d.isDigit then some ([], rest) else none
        | [] => none
      else none

/-- `re.match(r"^(.+)-(\d.*)$", pkg)` as the portage parser applies it: both
groups together must cover the whole string (up to one trailing newline) and
neither may contain a newline, so a string with an interior newline cannot
match; the name group must be non-empty. -/
def portageMatch (s : String) : Option (String × String) :=
  let t := chompNl s.data
  if t.contains '\n' then none
  else
    match portageScan t with
    | some nv =>
      if nv.1.isEmpty then none else some ((⟨nv.1⟩ : String), (⟨nv.2⟩ : String))
    | none => none

/-- `list_applications_portage`, given the two-level `category/name-version`
directory tree of the database when it was found: every package directory
whose name matches the regex yields `{category/name, version}`; the rest are
skipped. -/
def list_applications_portage : Option (List (String × List String)) → List Package
  | none => []
  | some cats =>
    cats.foldl
      (fun pkgs cat =>
        cat.2.foldl
          (fun pkgs pkg =>
            match portageMatch pkg with
            | some nv => pkgs ++ [⟨.str (cat.1 ++ "/" ++ nv.1), .str nv.2⟩]
            | none => pkgs)
          pkgs)
      []

/-- `list_applications_rpm`: the native package-database collaborator
delivers header name/version pairs directly; `none` stands for a missing or
unopenable database (both return the empty list). -/
def list_applications_rpm : Option (List (String × String)) → List Package
  | none => []
  | some headers => headers.map fun h => ⟨.str h.1, .str h.2⟩

/-- `_list_applications_windows_from_key`: per subkey, the last
`DisplayName`/`DisplayVersion` values win and the application is kept only
when both are non-empty. -/
def winAppsFromKey (subkeys : List (List (String × String))) : List Package :=
  subkeys.foldl
    (fun apps vals =>
      let name := lastValueOf "DisplayName" vals
      let version := lastValueOf "DisplayVersion" vals
      if name ≠ "" ∧ version ≠ "" then apps ++ [⟨.str name, .str version⟩] else apps)
    []

/-- What the SOFTWARE hive exposes to the windows application parser: the
subkey value-lists of the `Uninstall` key and of its `Wow6432Node` mirror,
each `none` when opening that key fails. -/
structure WinHive where
  uninstall : Option (List (List (String × String)))
  wow6432 : Option (List (List (String × String)))

/-- `list_applications_windows`: a missing or unreadable hive yields `[]`; a
missing `Uninstall` key returns the applications collected so far (none); a
missing `Wow6432Node` key returns only the native applications. -/
def list_applications_windows : Option WinHive → List Package
  | none => []
  | some hive =>
    match hive.uninstall with
    | none => []
    | some ks =>
      let apps := winAppsFromKey ks
      match hive.wow6432 with
      | none => apps
      | some ks2 => apps ++ winAppsFromKey ks2

/-! ## tools/lklfuse.py and tools/nbdfuse.py — the mount poll loop

Both mount helpers run `while p.poll() is None: if os.path.ismount(mp):
return mp; sleep(1)`. The external process is modelled by what `p.poll()`
would return at each iteration and by whether the mount point is visible at
each iteration. The loop is not a total function, so it is embedded
relationally. -/

/-- The poll loop terminates exactly when some iteration sees the process
exited (`p.poll() is not None`, checked first) or the mount visible. -/
def pollLoopTerminates (procExit : Nat → Option Int) (visible : Nat → Bool) : Prop :=
  ∃ k, procExit k ≠ none ∨ visible k = true

/-- Iteration `k` is the first to make progress and finds the process exited:
the `while` condition fails there, the helper logs and removes the temporary
directory, and the mount attempt returns failure. -/
def pollLoopFailsAt (procExit : Nat → Option Int) (visible : Nat → Bool) (k : Nat) : Prop :=
  procExit k ≠ none ∧ ∀ j < k, procExit j = none ∧ visible j = false

/-! ## inspect.py — the pipeline -/

/-- The temporary mount-point directories a run can create: the image mount,
the volume-group mount, the direct filesystem mount for index `i` of the
classified partition list, and the filesystem mount for logical volume `i`.
Each `tempfile.mkdtemp()` call yields a fresh directory, so the identifiers
are keyed by the loop position that created them. -/
inductive Res where
  | image
  | lvm
  | fsD (i : Nat)
  | fsV (i : Nat)
deriving DecidableEq

/-- Everything a mounted filesystem exposes to the probes and parsers. -/
structure FSContent where
  releaseFiles : ReleaseFiles
  winCurrentVersion : Option (List (String × String))
  apkDb : Option String
  dpkgDb : Option String
  pacmanDb : Option (List (Option String))
  portageDb : Option (List (String × List String))
  rpmDb : Option (List (String × String))
  winHive : Option WinHive

/-- One entry of the `fs_mps` list: the mount-point resource, the filesystem
type it was mounted as, and the content behind it. -/
structure MountedFS where
  res : Res
  fsType : String
  content : FSContent

/-- One logical volume inside a mounted volume group: the partitions
`pyparted` reports on its virtual device file, whether its `lklfuse` mount
attempt succeeds, and the content behind it. -/
structure VolWorld where
  sectorSize : Nat
  rawParts : List RawPart
  mountOk : Bool
  content : FSContent

/-- The outcomes of the external collaborators for one run: whether the
image mount succeeds, what the partition table of the raw device holds,
which filesystem mount attempts succeed (by position in the classified
list) and what they expose, whether the volume-group mount succeeds, and
the logical volumes it would contain. -/
structure World where
  imageMountOk : Bool
  sectorSize : Nat
  rawParts : List RawPart
  fsMountOk : Nat → Bool
  fsContent : Nat → FSContent
  lvmMountOk : Bool
  vols : List VolWorld

/-- Boolean outcome of `re.match(r"^(P).*$", s)` for a literal prefix `P`:
the string must start with the prefix and the remainder must be free of
newlines, except for one at the very end. -/
def reMatchLit (pre : String) (s : String) : Bool :=
  startsL pre.data s.data && !((chompNl (s.data.drop pre.data.length)).contains '\n')

/-- The `Linux\sMint` alternative of the DPKG regex: `Linux`, one whitespace
character, `Mint`, then `.*$`. -/
def reMatchLinuxMint (s : String) : Bool :=
  startsL "Linux".data s.data &&
    (match s.data.drop 5 with
     | w :: rest =>
       pyWs w && startsL "Mint".data rest && !((chompNl (rest.drop 4)).contains '\n')
     | [] => false)

/-- `APK = re.compile(r"^(Alpine).*$")` of `inspect.py`. -/
def matchAPK (s : String) : Bool := reMatchLit "Alpine" s

/-- `DPKG = re.compile(r"^(Debian|Ubuntu|Linux\sMint|LMDE).*$")`. -/
def matchDPKG (s : String) : Bool :=
  reMatchLit "Debian" s || reMatchLit "Ubuntu" s || reMatchLinuxMint s ||
    reMatchLit "LMDE" s

/-- `PACMAN = re.compile(r"^(Arch|Manjaro).*$")`. -/
def matchPACMAN (s : String) : Bool := reMatchLit "Arch" s || reMatchLit "Manjaro" s

/-- `PORTAGE = re.compile(r"^(Gentoo).*$")`. -/
def matchPORTAGE (s : String) : Bool := reMatchLit "Gentoo" s

/-- `RPM = re.compile(r"^(CentOS|AlmaLinux|Scientific|Rocky|Oracle|openSUSE|Fedora).*$")`. -/
def matchRPM (s : String) : Bool :=
  reMatchLit "CentOS" s || reMatchLit "AlmaLinux" s || reMatchLit "Scientific" s ||
    reMatchLit "Rocky" s || reMatchLit "Oracle" s || reMatchLit "openSUSE" s ||
    reMatchLit "Fedora" s

/-- `WIN = re.compile(r"^(Microsoft|Windows).*$")`. -/
def matchWIN (s : String) : Bool := reMatchLit "Microsoft" s || reMatchLit "Windows" s

/-- The six package-database formats. -/
inductive PMKind where
  | apk | dpkg | pacman | portage | rpm | win
deriving DecidableEq

/-- The `elif` chain of the application-listing loop in `inspect.py`: the
first OS-name regex that matches decides which parser runs; no match leaves
the application list untouched. -/
def selectPkgTool (osName : String) : Option PMKind :=
  if matchAPK osName then some .apk
  else if matchDPKG osName then some .dpkg
  else if matchPACMAN osName then some .pacman
  else if matchPORTAGE osName then some .portage
  else if matchRPM osName then some .rpm
  else if matchWIN osName then some .win
  else none

/-- Run the selected parser against one mounted filesystem's content. Only
the pacman parser can raise (a package directory without a `desc` file). -/
def runPkgTool (pm : PMKind) (c : FSContent) : Except Unit (List Package) :=
  match pm with
  | .apk => .ok (list_applications_apk c.apkDb)
  | .dpkg => .ok (list_applications_dpkg c.dpkgDb)
  | .pacman => list_applications_pacman c.pacmanDb
  | .portage => .ok (list_applications_portage c.portageDb)
  | .rpm => .ok (list_applications_rpm c.rpmDb)
  | .win => .ok (list_applications_windows c.winHive)

/-- The no-LVM branch of `inspect.py`: attempt to mount every classified
partition directly; each successful attempt contributes its fresh mount
point, failures are skipped. -/
def directMounts (w : World) (parts : List Partition) : List MountedFS :=
  parts.enum.filterMap fun ip =>
    if w.fsMountOk ip.1 then some ⟨.fsD ip.1, ip.2.type, w.fsContent ip.1⟩ else none

/-- The LVM branch of `inspect.py`: for every logical volume of the mounted
volume group, re-run partition classification; volumes with no classified
partition are skipped (`continue`), and the volume is mounted as its first
classified partition's type; mount failures are skipped. -/
def volMounts (w : World) : List MountedFS :=
  w.vols.enum.filterMap fun iv =>
    match list_partitions iv.2.sectorSize iv.2.rawParts with
    | [] => none
    | vp :: _ => if iv.2.mountOk then some ⟨.fsV iv.1, vp.type, iv.2.content⟩ else none

/-- One probe of the OS-identification loop: `ntfs` mounts go to the Windows
probe, everything else to the Linux probe. -/
def probeOs (f : MountedFS) : Option OSFields :=
  if f.fsType == "ntfs" then get_windows_os_info f.content.winCurrentVersion
  else get_linux_os_info f.content.releaseFiles

/-- The OS-identification loop: the first populated probe result wins; when
no filesystem yields one, the result is the empty dict. -/
def firstOsInfo : List MountedFS → Option OSFields
  | [] => none
  | f :: rest =>
    match probeOs f with
    | some o => some o
    | none => firstOsInfo rest

/-- The application-listing loop over `fs_mps` for a fixed selected parser:
the first filesystem on which the parser returns a non-empty list wins; an
exception raised by the parser propagates. -/
def appsLoop (pm : PMKind) : List MountedFS → Except Unit (List Package)
  | [] => .ok []
  | f :: rest =>
    match runPkgTool pm f.content with
    | .error e => .error e
    | .ok [] => appsLoop pm rest
    | .ok pkgs => .ok pkgs

/-- The record `inspect.py` prints on completion. The source builds
`{"os_name": os_info.get("name", ""), "os_version": os_info.get("name", ""),
"apps": apps}` — the `os_version` entry reads the `name` key, and no
package-manager entry exists. -/
structure OutRecord where
  os_name : String
  os_version : String
  apps : List Package
deriving DecidableEq

/-- How a run ends: the two fatal aborts, a crash from an uncaught
exception, or completion with a printed record. -/
inductive Outcome where
  | fatalMount
  | fatalNoParts
  | crashed
  | done (r : OutRecord)
deriving DecidableEq

/-- Process exit code: `sys.exit(1)` for the two fatal aborts, 1 from the
interpreter for an uncaught exception, 0 for a completed run. -/
def exitCode : Outcome → Nat
  | .done _ => 0
  | _ => 1

/-- The trace of one run: every mount-point resource in acquisition order,
every released resource in release order, and the outcome. -/
structure RunTrace where
  acquired : List Res
  released : List Res
  outcome : Outcome
deriving DecidableEq

/-- The whole of `inspect.py` after argument parsing: image mount (fatal on
failure), partition classification (fatal when empty, after releasing the
image mount), filesystem collection (direct or through the volume group),
OS identification, application listing (which can crash: the script has no
`try`/`finally`, so a crash releases nothing), and the final teardown that
releases every filesystem mount in list order, then the volume-group mount,
then the image mount. -/
def inspectRun (w : World) : RunTrace :=
  if !w.imageMountOk then ⟨[], [], .fatalMount⟩
  else
    let parts := list_partitions w.sectorSize w.rawParts
    if parts.isEmpty then ⟨[Res.image], [Res.image], .fatalNoParts⟩
    else
      let lvmParts := parts.filter (·.type == "lvm")
      let lvmAcquired := !lvmParts.isEmpty && w.lvmMountOk
      let fsMps : List MountedFS :=
        if lvmParts.isEmpty then directMounts w parts
        else if w.lvmMountOk then volMounts w
        else []
      let lvmRes : List Res := if lvmAcquired then [Res.lvm] else []
      let acquired := Res.image :: (lvmRes ++ fsMps.map (·.res))
      let osName := ((firstOsInfo fsMps).map (·.name)).getD ""
      let appsRes : Except Unit (List Package) :=
        if osName = "" then .ok []
        else
          match selectPkgTool osName with
          | none => .ok []
          | some pm => appsLoop pm fsMps
      match appsRes with
      | .error _ => ⟨acquired, [], .crashed⟩
      | .ok apps =>
        ⟨acquired, fsMps.map (·.res) ++ lvmRes ++ [Res.image],
          .done ⟨osName, osName, apps⟩⟩

/-! ## Specification-side definitions and helper lemmas -/

/-- The four recognised release-indicator sources, in the spec's priority
order. -/
inductive RelSource where
  | centos | gentoo | osrel | sysrel
deriving DecidableEq

/-- Modelled from the spec: "select exactly one source, in fixed priority:
`centos-release` > `gentoo-release` > `os-release` > `system-release`". -/
def prioritySource (rf : ReleaseFiles) : Option (RelSource × String) :=
  match rf.centosRelease with
  | some c => some (.centos, c)
  | none =>
  match rf.gentooRelease with
  | some g => some (.gentoo, g)
  | none =>
  match rf.osRelease with
  | some o => some (.osrel, o)
  | none => rf.systemRelease.map fun srel => (.sysrel, srel)

/-- Parse a single selected release source, per the spec's parsing rules for
each source kind. -/
def parseOneSource : RelSource × String → String × String × String
  | (.centos, c) =>
    match matchNameRelease c with
    | some nv => (nv.1, nv.2, "rpm")
    | none => ("", "", "")
  | (.gentoo, g) =>
    match matchGentooRelease g with
    | some nv => (nv.1, nv.2, "portage")
    | none => ("", "", "")
  | (.osrel, o) => osReleaseInfo o
  | (.sysrel, srel) =>
    match matchNameRelease srel with
    | some nv => (nv.1, nv.2, "rpm")
    | none => ("", "", "")

/-- Modelled from the claim: the positions in `cs` of every hyphen that is
immediately followed by a digit. -/
def hyphenDigitIdx (cs : List Char) : List Nat :=
  (List.range cs.length).filter fun i =>
    (cs.getD i ' ' == '-') && (cs.getD (i + 1) ' ').isDigit

/-- Modelled from the claim: split the entry at the last hyphen that is
followed by a digit, the name part before it and the version part after it;
no such hyphen, or an empty name part, yields no match. -/
def lastHyphenDigitSplit (cs : List Char) : Option (List Char × List Char) :=
  match (hyphenDigitIdx cs).getLast? with
  | some i => if i = 0 then none else some (cs.take i, cs.drop (i + 1))
  | none => none

/-- Modelled from the amended claim: the fixed OS-name-regex table driving
parser selection, in source order. -/
def pkgToolTable : List ((String → Bool) × PMKind) :=
  [(matchAPK, .apk), (matchDPKG, .dpkg), (matchPACMAN, .pacman),
    (matchPORTAGE, .portage), (matchRPM, .rpm), (matchWIN, .win)]

/-- Modelled from the amended claim: the parser attached to the first
matching entry of the table. -/
def selectPkgToolSpec (osName : String) : Option PMKind :=
  (pkgToolTable.find? fun e => e.1 osName).map (·.2)

/-- Is this resource a filesystem mount point (as opposed to the image or
volume-group mount point)? -/
def Res.isFs : Res → Bool
  | .fsD _ => true
  | .fsV _ => true
  | _ => false

/-- The teardown order of `inspect.py`: every filesystem mount (in the list
order the source iterates), then the volume-group mount, then the image
mount. -/
def cleanupOrder (acq : List Res) : List Res :=
  acq.filter Res.isFs ++ acq.filter (· == Res.lvm) ++ acq.filter (· == Res.image)

/-- Proof-side projection of `inspectRun`: the classified partitions of the
raw device. -/
def pipeParts (w : World) : List Partition := list_partitions w.sectorSize w.rawParts

/-- Proof-side projection of `inspectRun`: the partitions tagged `lvm`. -/
def pipeLvmParts (w : World) : List Partition :=
  (pipeParts w).filter (·.type == "lvm")

/-- Proof-side projection of `inspectRun`: the `fs_mps` list of the main
branch. -/
def pipeFsMps (w : World) : List MountedFS :=
  if (pipeLvmParts w).isEmpty then directMounts w (pipeParts w)
  else if w.lvmMountOk then volMounts w
  else []

/-- Proof-side projection of `inspectRun`: the volume-group resource, when
one was acquired. -/
def pipeLvmRes (w : World) : List Res :=
  if !(pipeLvmParts w).isEmpty && w.lvmMountOk then [Res.lvm] else []

/-- Proof-side projection of `inspectRun`: the OS name the application loop
sees. -/
def pipeOsName (w : World) : String :=
  ((firstOsInfo (pipeFsMps w)).map (·.name)).getD ""

/-- Proof-side projection of `inspectRun`: the application-listing result. -/
def pipeApps (w : World) : Except Unit (List Package) :=
  if pipeOsName w = "" then .ok []
  else
    match selectPkgTool (pipeOsName w) with
    | none => .ok []
    | some pm => appsLoop pm (pipeFsMps w)

/-- A release-file record with nothing found. -/
def emptyRF : ReleaseFiles := ⟨none, none, none, none⟩

/-- A mounted filesystem exposing nothing at all. -/
def emptyContent : FSContent := ⟨emptyRF, none, none, none, none, none, none, none⟩

/-- An `os-release` file of a rolling-release Arch system. -/
def archOsRelease : String := "NAME=\"Arch Linux\"\nBUILD_ID=rolling\nID=arch\n"

/-- An `os-release` file of a Manjaro system. -/
def manjaroOsRelease : String := "NAME=\"Manjaro Linux\"\nBUILD_ID=rolling\nID=arch\n"

/-- An `os-release` file whose `NAME` says Alpine while `ID_LIKE` says
debian. -/
def alpineOsRelease : String := "NAME=\"Alpine Linux\"\nVERSION_ID=3.16.2\nID_LIKE=debian\n"

/-- The spec's end-to-end `os-release` example. -/
def ubuntuOsRelease : String := "NAME=Ubuntu\nVERSION=20.04\nID_LIKE=debian\n"

/-- A dpkg status database with one installed package `bash 5.0`. -/
def dpkgDbEx : String := "Package: bash\nStatus: install ok installed\nVersion: 5.0\n\n"

/-- An apk database with one package `musl 1.2.3`. -/
def apkDbEx : String := "P:musl\nV:1.2.3\n\n"

/-- An Arch filesystem whose pacman database has one package directory with
no `desc` file: listing applications on it raises. -/
def crashContent : FSContent :=
  { emptyContent with
      releaseFiles := ⟨none, none, some archOsRelease, none⟩
      pacmanDb := some [none] }

/-- A world with one ext4 partition holding `crashContent`. -/
def W1 : World :=
  { imageMountOk := true, sectorSize := 512
    rawParts := [⟨1, some "ext4", false, 2048, 204800⟩]
    fsMountOk := fun _ => true, fsContent := fun _ => crashContent
    lvmMountOk := false, vols := [] }

/-- A filesystem whose `os-release` resolves the package manager to dpkg
while its `NAME` starts with `Alpine`, and which carries both an apk and a
dpkg database. -/
def mixedContent : FSContent :=
  { emptyContent with
      releaseFiles := ⟨none, none, some alpineOsRelease, none⟩
      apkDb := some apkDbEx
      dpkgDb := some dpkgDbEx }

/-- A world with one ext4 partition holding `mixedContent`. -/
def W2 : World :=
  { imageMountOk := true, sectorSize := 512
    rawParts := [⟨1, some "ext4", false, 2048, 204800⟩]
    fsMountOk := fun _ => true, fsContent := fun _ => mixedContent
    lvmMountOk := false, vols := [] }

/-- The spec's end-to-end example filesystem: one ext4 partition with the
Ubuntu `os-release` and the one-package dpkg database. -/
def ubuntuContent : FSContent :=
  { emptyContent with
      releaseFiles := ⟨none, none, some ubuntuOsRelease, none⟩
      dpkgDb := some dpkgDbEx }

/-- The spec's end-to-end example world. -/
def W3 : World :=
  { imageMountOk := true, sectorSize := 512
    rawParts := [⟨1, some "ext4", false, 2048, 204800⟩]
    fsMountOk := fun _ => true, fsContent := fun _ => ubuntuContent
    lvmMountOk := false, vols := [] }

/-- A Manjaro filesystem whose pacman database has one package directory
with no `desc` file. -/
def crashContentM : FSContent :=
  { emptyContent with
      releaseFiles := ⟨none, none, some manjaroOsRelease, none⟩
      pacmanDb := some [none] }

/-- A world with one xfs partition holding `crashContentM`. -/
def W4 : World :=
  { imageMountOk := true, sectorSize := 512
    rawParts := [⟨2, some "xfs", false, 4096, 409600⟩]
    fsMountOk := fun _ => true, fsContent := fun _ => crashContentM
    lvmMountOk := false, vols := [] }

theorem classifyDescriptorSpec_eq (sectorSize : Nat) (p : RawPart) :
    classifyDescriptorSpec sectorSize p =
      (partTypeOf p).map fun t =>
        ⟨p.number, t, p.start * sectorSize, p.length * sectorSize⟩ := by
  unfold classifyDescriptorSpec partTypeOf
  cases hfs : p.fileSystem with
  | none => cases hl : p.lvmFlag <;> simp
  | some t =>
    by_cases h : SUPPORTED_FS_TYPES.contains t <;> cases hl : p.lvmFlag <;> simp [h]

theorem apk_no_blank_no_flush (suf : List (List Char))
    (st : String × String × List Package) (h : ∀ l ∈ suf, stripL pyWs l ≠ []) :
    (suf.foldl apkStep st).2.2 = st.2.2 := by
  induction suf generalizing st with
  | nil => rfl
  | cons l rest ih =>
    have hl : (stripL pyWs l).isEmpty = false := by
      simpa [List.isEmpty_iff] using h l (List.mem_cons_self _ _)
    have hrest : ∀ x ∈ rest, stripL pyWs x ≠ [] := fun x hx =>
      h x (List.mem_cons_of_mem _ hx)
    rw [List.foldl_cons, ih _ hrest]
    show (apkStep st l).2.2 = st.2.2
    unfold apkStep
    rw [if_neg (by simp [hl])]
    split
    · rfl
    · split <;> rfl

theorem dpkg_no_blank_no_flush (suf : List (List Char))
    (st : String × String × Bool × List Package) (h : ∀ l ∈ suf, stripL pyWs l ≠ []) :
    (suf.foldl dpkgStep st).2.2.2 = st.2.2.2 := by
  induction suf generalizing st with
  | nil => rfl
  | cons l rest ih =>
    have hl : (stripL pyWs l).isEmpty = false := by
      simpa [List.isEmpty_iff] using h l (List.mem_cons_self _ _)
    have hrest : ∀ x ∈ rest, stripL pyWs x ≠ [] := fun x hx =>
      h x (List.mem_cons_of_mem _ hx)
    rw [List.foldl_cons, ih _ hrest]
    show (dpkgStep st l).2.2.2 = st.2.2.2
    unfold dpkgStep
    rw [if_neg (by simp [hl])]
    split
    · rfl
    · split
      · rfl
      · split <;> rfl

/-! ## Claim theorems: classifier, OS identifier, poll loop, parsers -/

/-- C5: for every list of raw partition descriptors, the Partition Classifier
tags a descriptor with its filesystem type exactly when that type is in the
supported set, else tags it `lvm` exactly when its LVM flag is set, else
omits it; it is a total function (never raises), preserves descriptor order
(the emitted numbers form a sublist of the input numbers), and an empty
output is an ordinary value. -/
theorem C5_partition_classifier (sectorSize : Nat) (ps : List RawPart) :
    list_partitions sectorSize ps = ps.filterMap (classifyDescriptorSpec sectorSize) ∧
    List.Sublist ((list_partitions sectorSize ps).map Partition.nr)
      (ps.map RawPart.number) := by
  induction ps with
  | nil => exact ⟨rfl, List.Sublist.refl _⟩
  | cons p rest ih =>
    refine ⟨?_, ?_⟩
    · rw [List.filterMap_cons, classifyDescriptorSpec_eq]
      cases h : partTypeOf p <;> simp [list_partitions, h, ih.1]
    · cases h : partTypeOf p with
      | none => simpa [list_partitions, h] using List.Sublist.cons p.number ih.2
      | some t => simpa [list_partitions, h] using List.Sublist.cons₂ p.number ih.2

/-- C6: the Linux probe consumes exactly one release source, selected by the
fixed priority `centos-release` > `gentoo-release` > `os-release` >
`system-release`; in particular, with both `centos-release` and `os-release`
present, `centos-release` is parsed as `"<name> release <version>"` and the
package manager resolves to `rpm`. -/
theorem C6_release_priority :
    (∀ rf : ReleaseFiles,
        linuxRawInfo rf =
          match prioritySource rf with
          | some src => parseOneSource src
          | none => ("", "", "")) ∧
    get_linux_os_info
        ⟨some "CentOS Linux release 8.4.2105\n", none,
          some "NAME=Ubuntu\nVERSION=20.04\nID_LIKE=debian\n", none⟩ =
      some ⟨"CentOS Linux", "8.4.2105", "rpm"⟩ := by
  constructor
  · rintro ⟨c, g, o, srel⟩
    cases c <;> cases g <;> cases o <;> cases srel <;> rfl
  · decide

/-- C9: the mount poll loop has no bound — with an external mount process
that never exits and a mount that never becomes visible, the loop never
terminates; and when the process has already exited at the first poll while
the mount was never visible, the attempt fails. -/
theorem C9_poll_unbounded :
    ¬ pollLoopTerminates (fun _ => none) (fun _ => false) ∧
    pollLoopFailsAt (fun _ => some 1) (fun _ => false) 0 := by
  constructor
  · rintro ⟨k, h | h⟩ <;> simp at h
  · exact ⟨by simp, fun j hj => absurd hj (Nat.not_lt_zero j)⟩

/-- C10: in the apk and dpkg parsers a stanza is flushed only at a blank
line: appending lines none of which strip to blank never changes the emitted
package list, so a final stanza not followed by a blank line is dropped — as
the concrete database contents show. -/
theorem C10_final_stanza_requires_blank :
    (∀ pre suf : List (List Char), (∀ l ∈ suf, stripL pyWs l ≠ []) →
        ((pre ++ suf).foldl apkStep ("", "", [])).2.2 =
            (pre.foldl apkStep ("", "", [])).2.2 ∧
          ((pre ++ suf).foldl dpkgStep ("", "", false, [])).2.2.2 =
            (pre.foldl dpkgStep ("", "", false, [])).2.2.2) ∧
    list_applications_apk (some "P:musl\nV:1.2.3") = [] ∧
    list_applications_apk (some "P:musl\nV:1.2.3\n\n") =
      [⟨.str "musl", .str "1.2.3"⟩] ∧
    list_applications_dpkg
        (some "Package: bash\nStatus: install ok installed\nVersion: 5.0") = [] ∧
    list_applications_dpkg
        (some "Package: bash\nStatus: install ok installed\nVersion: 5.0\n\n") =
      [⟨.str "bash", .str "5.0"⟩] := by
  refine ⟨?_, by decide, by decide, by decide, by decide⟩
  intro pre suf h
  rw [List.foldl_append, List.foldl_append]
  exact ⟨apk_no_blank_no_flush suf _ h, dpkg_no_blank_no_flush suf _ h⟩

theorem chompNl_eq_self (cs : List Char) (h : cs.contains '\n' = false) :
    chompNl cs = cs := by
  unfold chompNl
  split
  · rename_i r heq
    exfalso
    have hmem : '\n' ∈ cs := by
      have : '\n' ∈ cs.reverse := by rw [heq]; exact List.mem_cons_self _ _
      simpa using this
    simp at h
    exact h hmem
  · rfl

theorem hyphenDigitIdx_cons (c : Char) (rest : List Char) :
    hyphenDigitIdx (c :: rest) =
      (if (c == '-') && (rest.getD 0 ' ').isDigit then [0] else []) ++
        (hyphenDigitIdx rest).map Nat.succ := by
  unfold hyphenDigitIdx
  rw [List.length_cons, List.range_succ_eq_map, List.filter_cons, List.filter_map]
  simp only [Function.comp_def, List.getD_cons_succ, List.getD_cons_zero]
  split <;> simp [Nat.succ_eq_add_one]

theorem portageScan_cons (c : Char) (rest : List Char) :
    portageScan (c :: rest) =
      match portageScan rest with
      | some nv => some (c :: nv.1, nv.2)
      | none =>
        if c = '-' then
          match rest with
          | d :: _ => if d.isDigit then some ([], rest) else none
          | [] => none
        else none := rfl

theorem portageScan_eq (cs : List Char) :
    portageScan cs =
      (hyphenDigitIdx cs).getLast?.map fun i => (cs.take i, cs.drop (i + 1)) := by
  induction cs with
  | nil => rfl
  | cons c rest ih =>
    rw [portageScan_cons, ih, hyphenDigitIdx_cons]
    cases hlast : (hyphenDigitIdx rest).getLast? with
    | none =>
      have hnil : hyphenDigitIdx rest = [] := List.getLast?_eq_none_iff.mp hlast
      rw [hnil]
      simp only [Option.map_none', List.map_nil, List.append_nil]
      by_cases hc : c = '-'
      · cases rest with
        | nil => simp [hc]
        | cons d tail => by_cases hd : d.isDigit <;> simp [hc, hd, List.getD_cons_zero]
      · simp [hc]
    | some i =>
      have hne : (hyphenDigitIdx rest).map Nat.succ ≠ [] := by
        intro hmap
        rw [List.map_eq_nil_iff] at hmap
        rw [hmap] at hlast
        simp at hlast
      rw [List.getLast?_append_of_ne_nil _ hne, List.getLast?_map, hlast]
      simp

/-- C8: the portage parser's regex splits a `name-version` directory entry at
the last hyphen followed by a digit (newline-free entry names, which is what
directory names are); the example entry `sys-devel/bison-3.8.2` yields
`{name: "sys-devel/bison", version: "3.8.2"}`; an entry with no such suffix
is omitted. -/
theorem C8_portage_split :
    (∀ s : String, s.data.contains '\n' = false →
        portageMatch s =
          (lastHyphenDigitSplit s.data).map fun nv =>
            ((⟨nv.1⟩ : String), (⟨nv.2⟩ : String))) ∧
    list_applications_portage (some [("sys-devel", ["bison-3.8.2"])]) =
      [⟨.str "sys-devel/bison", .str "3.8.2"⟩] ∧
    list_applications_portage (some [("app-misc", ["bison"])]) = [] := by
  refine ⟨?_, by decide, by decide⟩
  intro s hnl
  unfold portageMatch lastHyphenDigitSplit
  rw [chompNl_eq_self _ hnl]
  rw [if_neg (by simpa using hnl)]
  rw [portageScan_eq]
  cases hlast : (hyphenDigitIdx s.data).getLast? with
  | none => rfl
  | some i =>
    have hi : i ∈ hyphenDigitIdx s.data := List.mem_of_mem_getLast? hlast
    have hilt : i < s.data.length := by
      have := (List.mem_filter.mp hi).1
      exact List.mem_range.mp this
    by_cases hz : i = 0
    · subst hz; simp
    · have hne : ¬(s.data.take i).isEmpty = true := by
        rw [List.isEmpty_iff, List.take_eq_nil_iff]
        rintro (h | h)
        · exact hz h
        · rw [h] at hilt; exact absurd hilt (by simp)
      simp [hne, hz]

theorem pmOfIdToken_sound (t : String) (r : String) (h : pmOfIdToken t = some r) :
    r ∈ ["apk", "dpkg", "pacman", "rpm"] := by
  unfold pmOfIdToken at h
  split_ifs at h <;> simp_all

theorem pmFromIdLike_mem (toks : List String) :
    pmFromIdLike toks ∈ ["apk", "dpkg", "pacman", "rpm", ""] := by
  unfold pmFromIdLike
  cases hfs : toks.findSome? pmOfIdToken with
  | none => simp
  | some r =>
    obtain ⟨t, _, ht⟩ := List.exists_of_findSome?_eq_some hfs
    have h4 := pmOfIdToken_sound t r ht
    simp at h4 ⊢
    tauto

theorem linuxRawInfo_pm_mem (rf : ReleaseFiles) :
    (linuxRawInfo rf).2.2 ∈ ["apk", "dpkg", "pacman", "rpm", "portage", ""] := by
  obtain ⟨c, g, o, srel⟩ := rf
  unfold linuxRawInfo
  cases c with
  | some cv => cases hmc : matchNameRelease cv <;> simp [hmc]
  | none =>
  cases g with
  | some gv => cases hmg : matchGentooRelease gv <;> simp [hmg]
  | none =>
  cases o with
  | some ov =>
    show (osReleaseInfo ov).2.2 ∈ _
    have heq : (osReleaseInfo ov).2.2 =
        pmFromIdLike (pySplitWs (pyStripWsQuotes
          ((dictGet (osReleaseKV ov) "ID_LIKE").getD
            ((dictGet (osReleaseKV ov) "ID").getD "")))) := rfl
    rw [heq]
    have hm := pmFromIdLike_mem
        (pySplitWs (pyStripWsQuotes
          ((dictGet (osReleaseKV ov) "ID_LIKE").getD
            ((dictGet (osReleaseKV ov) "ID").getD ""))))
    simp only [List.mem_cons, List.not_mem_nil, or_false] at hm
    rcases hm with h | h | h | h | h <;> simp [h]
  | none =>
  cases srel with
  | some sv => cases hms : matchNameRelease sv <;> simp [hms]
  | none => simp

/-- C7 counterexample: an `os-release` whose `VERSION` value is a single
space is truthy before stripping, so the probe returns a populated dict
whose stripped version is the empty string — a partially populated OSInfo. -/
theorem C7_counterexample :
    get_linux_os_info ⟨none, none, some "NAME=Foo\nVERSION= \n", none⟩ =
      some ⟨"Foo", "", ""⟩ ∧
    (some (⟨"Foo", "", ""⟩ : OSFields)).isSome = true := by
  constructor
  · decide
  · rfl

/-- C7 amended: a populated Linux probe result has raw (pre-strip) name and
version non-empty, its fields are the stripped raw values, and its package
manager lies in the closed set (the empty string standing for `none`); the
stripped name or version itself may be empty. The Windows probe is fully
all-or-nothing with package manager `win`. -/
theorem C7_all_or_nothing :
    (∀ rf : ReleaseFiles,
        match get_linux_os_info rf with
        | none => True
        | some o =>
          (linuxRawInfo rf).1 ≠ "" ∧ (linuxRawInfo rf).2.1 ≠ "" ∧
          o.name = pyStripWsQuotes (linuxRawInfo rf).1 ∧
          o.version = pyStripWsQuotes (linuxRawInfo rf).2.1 ∧
          o.package_manager ∈ ["apk", "dpkg", "pacman", "rpm", "portage", ""]) ∧
    (∀ vals : Option (List (String × String)),
        match get_windows_os_info vals with
        | none => True
        | some o => o.name ≠ "" ∧ o.version ≠ "" ∧ o.package_manager = "win") := by
  constructor
  · intro rf
    by_cases h1 : (linuxRawInfo rf).1 = "" <;> by_cases h2 : (linuxRawInfo rf).2.1 = "" <;>
      simp only [get_linux_os_info, h1, h2] <;> simp_all
    simpa using linuxRawInfo_pm_mem rf
  · intro vals
    cases vals with
    | none => trivial
    | some kvs =>
      by_cases h1 : lastValueOf "ProductName" kvs = "" <;>
        by_cases h2 : lastValueOf "CurrentVersion" kvs = "" <;>
        simp only [get_windows_os_info, h1, h2] <;> simp_all

/-- C1 counterexample: in `W1` the image mount and one filesystem mount are
acquired, the pacman parser raises on a package directory without a `desc`
file, and — the script having no `try`/`finally` — the run crashes with no
release at all: the acquired mount points are not released. -/
theorem C1_counterexample :
    (inspectRun W1).acquired = [Res.image, Res.fsD 0] ∧
    (inspectRun W1).released = [] ∧
    (inspectRun W1).outcome = .crashed := by decide

/-- C2 counterexample: the probe resolves `package_manager = "dpkg"` (from
`ID_LIKE=debian`), yet the run's application list comes from the apk parser
(`musl`, from the apk database) rather than the dpkg parser (`bash`, from
the dpkg database), because selection matched the regex `^(Alpine).*$`
against the OS name. -/
theorem C2_counterexample :
    get_linux_os_info ⟨none, none, some alpineOsRelease, none⟩ =
      some ⟨"Alpine Linux", "3.16.2", "dpkg"⟩ ∧
    (inspectRun W2).outcome =
      .done ⟨"Alpine Linux", "Alpine Linux", [⟨.str "musl", .str "1.2.3"⟩]⟩ ∧
    list_applications_dpkg (ubuntuContent.dpkgDb) = [⟨.str "bash", .str "5.0"⟩] := by
  decide

/-- C2 amended: parser selection is a function of the OS name alone — the
`elif` chain of `inspect.py` equals the first-match regex table. -/
theorem C2_selection_by_name (osName : String) :
    selectPkgTool osName = selectPkgToolSpec osName := by
  unfold selectPkgTool selectPkgToolSpec pkgToolTable
  cases h1 : matchAPK osName <;> cases h2 : matchDPKG osName <;>
    cases h3 : matchPACMAN osName <;> cases h4 : matchPORTAGE osName <;>
    cases h5 : matchRPM osName <;> cases h6 : matchWIN osName <;>
    simp [List.find?, h1, h2, h3, h4, h5, h6]

/-- C3, evaluating the code at the spec's end-to-end example: the probe
finds Ubuntu 20.04 with package manager dpkg, the dpkg parser returns
`bash 5.0`, but the printed record is
`{os_name: "Ubuntu", os_version: "Ubuntu", apps: [...]}` — the `os_version`
entry is populated from the `name` key and no package-manager field
exists. -/
theorem C3_output_record :
    inspectRun W3 =
      ⟨[Res.image, Res.fsD 0], [Res.fsD 0, Res.image],
        .done ⟨"Ubuntu", "Ubuntu", [⟨.str "bash", .str "5.0"⟩]⟩⟩ ∧
    get_linux_os_info ubuntuContent.releaseFiles =
      some ⟨"Ubuntu", "20.04", "dpkg"⟩ := by decide

/-- C4 counterexample: `W4` mounts its image and finds one partition, yet
the run does not complete with exit code 0 — the pacman parser raises, the
interpreter aborts with exit code 1. -/
theorem C4_counterexample :
    W4.imageMountOk = true ∧
    list_partitions W4.sectorSize W4.rawParts ≠ [] ∧
    (inspectRun W4).outcome = .crashed ∧
    exitCode (inspectRun W4).outcome = 1 := by decide

theorem filterMap_sublist_map (f : α → Option β) (g : α → β) (l : List α)
    (h : ∀ a b, f a = some b → b = g a) :
    List.Sublist (l.filterMap f) (l.map g) := by
  induction l with
  | nil => simp
  | cons a rest ih =>
    rw [List.filterMap_cons, List.map_cons]
    cases hfa : f a with
    | none => exact List.Sublist.cons _ ih
    | some b => rw [h a b hfa]; exact List.Sublist.cons₂ _ ih

theorem directMounts_res (w : World) (parts : List Partition) :
    (directMounts w parts).map (·.res) =
      parts.enum.filterMap fun ip =>
        if w.fsMountOk ip.1 then some (Res.fsD ip.1) else none := by
  unfold directMounts
  rw [List.map_filterMap]
  congr 1
  funext ip
  by_cases h : w.fsMountOk ip.1 <;> simp [h]

theorem directMounts_res_sublist (w : World) (parts : List Partition) :
    List.Sublist ((directMounts w parts).map (·.res))
      ((List.range parts.length).map Res.fsD) := by
  rw [directMounts_res]
  have hmap : parts.enum.map (fun ip => Res.fsD ip.1) =
      (List.range parts.length).map Res.fsD := by
    calc parts.enum.map (fun ip => Res.fsD ip.1)
        = (parts.enum.map Prod.fst).map Res.fsD := by rw [List.map_map]; rfl
      _ = (List.range parts.length).map Res.fsD := by rw [List.enum_map_fst]
  rw [← hmap]
  apply filterMap_sublist_map
  intro a b hab
  by_cases h : w.fsMountOk a.1 <;> simp [h] at hab
  exact hab.symm

theorem volMounts_res (w : World) :
    (volMounts w).map (·.res) =
      w.vols.enum.filterMap fun iv =>
        match list_partitions iv.2.sectorSize iv.2.rawParts with
        | [] => none
        | _ :: _ => if iv.2.mountOk then some (Res.fsV iv.1) else none := by
  unfold volMounts
  rw [List.map_filterMap]
  congr 1
  funext iv
  cases list_partitions iv.2.sectorSize iv.2.rawParts with
  | nil => rfl
  | cons vp vrest => by_cases h : iv.2.mountOk <;> simp [h]

theorem volMounts_res_sublist (w : World) :
    List.Sublist ((volMounts w).map (·.res))
      ((List.range w.vols.length).map Res.fsV) := by
  rw [volMounts_res]
  have hmap : w.vols.enum.map (fun iv => Res.fsV iv.1) =
      (List.range w.vols.length).map Res.fsV := by
    calc w.vols.enum.map (fun iv => Res.fsV iv.1)
        = (w.vols.enum.map Prod.fst).map Res.fsV := by rw [List.map_map]; rfl
      _ = (List.range w.vols.length).map Res.fsV := by rw [List.enum_map_fst]
  rw [← hmap]
  apply filterMap_sublist_map
  intro a b hab
  cases hlp : list_partitions a.2.sectorSize a.2.rawParts with
  | nil => rw [hlp] at hab; simp at hab
  | cons vp vrest =>
    rw [hlp] at hab
    by_cases h : a.2.mountOk <;> simp [h] at hab
    exact hab.symm

theorem fsD_injective : Function.Injective Res.fsD := fun a b h => by injection h

theorem fsV_injective : Function.Injective Res.fsV := fun a b h => by injection h

theorem directMounts_res_nodup (w : World) (parts : List Partition) :
    ((directMounts w parts).map (·.res)).Nodup :=
  List.Sublist.nodup (directMounts_res_sublist w parts)
    ((List.nodup_range _).map fsD_injective)

theorem volMounts_res_nodup (w : World) :
    ((volMounts w).map (·.res)).Nodup :=
  List.Sublist.nodup (volMounts_res_sublist w)
    ((List.nodup_range _).map fsV_injective)

theorem directMounts_res_isFs (w : World) (parts : List Partition) :
    ∀ r ∈ (directMounts w parts).map (·.res), r.isFs = true := by
  intro r hr
  have hmem := (directMounts_res_sublist w parts).subset hr
  obtain ⟨i, _, rfl⟩ := List.mem_map.mp hmem
  rfl

theorem volMounts_res_isFs (w : World) :
    ∀ r ∈ (volMounts w).map (·.res), r.isFs = true := by
  intro r hr
  have hmem := (volMounts_res_sublist w).subset hr
  obtain ⟨i, _, rfl⟩ := List.mem_map.mp hmem
  rfl

theorem pipeFsMps_res_isFs (w : World) :
    ∀ r ∈ (pipeFsMps w).map (·.res), r.isFs = true := by
  unfold pipeFsMps
  split
  · exact directMounts_res_isFs w _
  · split
    · exact volMounts_res_isFs w
    · intro r hr; simp at hr

theorem pipeFsMps_res_nodup (w : World) : ((pipeFsMps w).map (·.res)).Nodup := by
  unfold pipeFsMps
  split
  · exact directMounts_res_nodup w _
  · split
    · exact volMounts_res_nodup w
    · simp

theorem pipeLvmRes_cases (w : World) : pipeLvmRes w = [] ∨ pipeLvmRes w = [Res.lvm] := by
  unfold pipeLvmRes
  split
  · right; rfl
  · left; rfl

theorem isFs_ne_lvm (r : Res) (h : r.isFs = true) : (r == Res.lvm) = false := by
  cases r <;> simp_all [Res.isFs]

theorem isFs_ne_image (r : Res) (h : r.isFs = true) : (r == Res.image) = false := by
  cases r <;> simp_all [Res.isFs]

theorem cleanup_groups (fsRes lvmRes : List Res)
    (hfs : ∀ r ∈ fsRes, r.isFs = true) (hlvm : lvmRes = [] ∨ lvmRes = [Res.lvm]) :
    cleanupOrder (Res.image :: (lvmRes ++ fsRes)) = fsRes ++ lvmRes ++ [Res.image] := by
  have h1 : fsRes.filter Res.isFs = fsRes := List.filter_eq_self.mpr hfs
  have h2 : fsRes.filter (· == Res.lvm) = [] :=
    List.filter_eq_nil_iff.mpr fun r hr => by simp [isFs_ne_lvm r (hfs r hr)]
  have h3 : fsRes.filter (· == Res.image) = [] :=
    List.filter_eq_nil_iff.mpr fun r hr => by simp [isFs_ne_image r (hfs r hr)]
  have e1 : Res.isFs Res.image = false := rfl
  have e2 : (Res.image == Res.lvm) = false := rfl
  have e3 : (Res.image == Res.image) = true := rfl
  have e4 : Res.isFs Res.lvm = false := rfl
  have e5 : (Res.lvm == Res.lvm) = true := rfl
  have e6 : (Res.lvm == Res.image) = false := rfl
  rcases hlvm with h | h <;> subst h <;>
    simp [cleanupOrder, List.filter_append, List.filter_cons, h1, h2, h3,
      e1, e2, e3, e4, e5, e6]

theorem acquired_nodup (fsRes lvmRes : List Res)
    (hfs : ∀ r ∈ fsRes, r.isFs = true) (hnd : fsRes.Nodup)
    (hlvm : lvmRes = [] ∨ lvmRes = [Res.lvm]) :
    (Res.image :: (lvmRes ++ fsRes)).Nodup := by
  have himg : Res.image ∉ fsRes := fun hmem => by
    have := hfs _ hmem; simp [Res.isFs] at this
  have hlv : Res.lvm ∉ fsRes := fun hmem => by
    have := hfs _ hmem; simp [Res.isFs] at this
  rcases hlvm with h | h <;> subst h
  · rw [List.nil_append, List.nodup_cons]
    exact ⟨himg, hnd⟩
  · rw [List.nodup_cons]
    refine ⟨?_, ?_⟩
    · simp only [List.cons_append, List.nil_append, List.mem_cons]
      rintro (h | h)
      · exact absurd h (by simp)
      · exact himg h
    · rw [List.nodup_append]
      refine ⟨List.nodup_singleton _, hnd, ?_⟩
      intro r hr hrf
      simp at hr
      subst hr
      exact hlv hrf

theorem inspectRun_eq (w : World) :
    inspectRun w =
      if w.imageMountOk = false then ⟨[], [], .fatalMount⟩
      else if (list_partitions w.sectorSize w.rawParts).isEmpty then
        ⟨[Res.image], [Res.image], .fatalNoParts⟩
      else
        match pipeApps w with
        | .error _ =>
          ⟨Res.image :: (pipeLvmRes w ++ (pipeFsMps w).map (·.res)), [], .crashed⟩
        | .ok apps =>
          ⟨Res.image :: (pipeLvmRes w ++ (pipeFsMps w).map (·.res)),
            (pipeFsMps w).map (·.res) ++ pipeLvmRes w ++ [Res.image],
            .done ⟨pipeOsName w, pipeOsName w, apps⟩⟩ := by
  cases hb : w.imageMountOk <;>
    simp [inspectRun, pipeApps, pipeOsName, pipeFsMps, pipeLvmRes, pipeLvmParts,
      pipeParts, hb]

/-- C1 amended: on every non-crashing path (success, and both fatal aborts)
the teardown releases exactly the acquired resources, once each, ordered
filesystem mounts first (in mount-list order), then the volume-group mount,
then the image mount; a run crashed by an uncaught parser exception releases
nothing. The acquired list is duplicate-free, so each release is exactly
once. -/
theorem C1_cleanup_discipline (w : World) :
    ((inspectRun w).outcome = .crashed → (inspectRun w).released = []) ∧
    ((inspectRun w).outcome ≠ .crashed →
      (inspectRun w).released = cleanupOrder (inspectRun w).acquired) ∧
    (inspectRun w).acquired.Nodup := by
  rw [inspectRun_eq]
  by_cases himg : w.imageMountOk = false
  · rw [if_pos himg]
    exact ⟨by simp, fun _ => by decide, by simp⟩
  · rw [if_neg himg]
    by_cases hparts : (list_partitions w.sectorSize w.rawParts).isEmpty
    · rw [if_pos hparts]
      exact ⟨by simp, fun _ => by decide, by simp⟩
    · rw [if_neg hparts]
      have hfs := pipeFsMps_res_isFs w
      have hnd := pipeFsMps_res_nodup w
      have hlvm := pipeLvmRes_cases w
      cases happ : pipeApps w with
      | error e =>
        exact ⟨fun _ => rfl, fun hc => absurd rfl hc,
          acquired_nodup _ _ hfs hnd hlvm⟩
      | ok apps =>
        exact ⟨by simp, fun _ => (cleanup_groups _ _ hfs hlvm).symm,
          acquired_nodup _ _ hfs hnd hlvm⟩

/-- C4 amended: the outcome is `fatalMount` exactly when the image mount
fails, `fatalNoParts` exactly when the image mounted but no partition was
classified — and then the image mount is the one acquired and the one
released resource; exit code 0 is reached exactly by the completed
(record-printing) runs, while both fatal aborts and a crash from an uncaught
parser exception exit 1. -/
theorem C4_exit_codes (w : World) :
    ((inspectRun w).outcome = .fatalMount ↔ w.imageMountOk = false) ∧
    ((inspectRun w).outcome = .fatalNoParts ↔
      (w.imageMountOk = true ∧ list_partitions w.sectorSize w.rawParts = [])) ∧
    ((inspectRun w).outcome = .fatalNoParts →
      inspectRun w = ⟨[Res.image], [Res.image], .fatalNoParts⟩) ∧
    (exitCode (inspectRun w).outcome = 0 ↔ ∃ r, (inspectRun w).outcome = .done r) := by
  rw [inspectRun_eq]
  by_cases himg : w.imageMountOk = false
  · rw [if_pos himg]
    simp [himg, exitCode]
  · rw [if_neg himg]
    have himgt : w.imageMountOk = true := by
      cases hb : w.imageMountOk
      · exact absurd hb himg
      · rfl
    by_cases hparts : (list_partitions w.sectorSize w.rawParts).isEmpty
    · rw [if_pos hparts]
      simp [himgt, List.isEmpty_iff.mp hparts, exitCode]
    · rw [if_neg hparts]
      have hne : ¬ list_partitions w.sectorSize w.rawParts = [] := by
        simpa [List.isEmpty_iff] using hparts
      cases happ : pipeApps w with
      | error e => simp [himgt, hne, exitCode]
      | ok apps => simp [himgt, hne, exitCode]

end VmInspect
